import Mathlib

/-!
Verification of `notion_portfolio_updater.py` (repository 0hvr/notion-stock-portfolio).

Shallow embedding conventions:
* Python `float` values are modelled by `PFloat`: an exact rational for finite
  values plus explicit `nan` / `inf` / `ninf` constructors.  Finite arithmetic
  is modelled exactly over `ℚ` (the spec's formulas carry no rounding of their
  own); the special-value propagation rules follow IEEE-754 where the code can
  reach them.  Signed zero is not distinguished.
* Python `None` / optional values are `Option`.
* The Notion property bag of a page is an association list from property name
  to a typed property value (`NProp`).
* External collaborators (the Notion client, yfinance, the clock and the
  environment) are parameters of the functions that use them, so every
  function is pure and total; exceptions raised by a collaborator are modelled
  as explicit constructors (`Quote.raises`, the `write_fails` oracle).
-/

namespace NotionPortfolio

/-- Model of a Python `float` value: finite values are exact rationals,
with explicit NaN and the two infinities. -/
inductive PFloat where
  | finite (q : ℚ)
  | nan
  | inf
  | ninf
deriving DecidableEq, Repr

/-- Exact rational multiplication, written with `mkRat` so that it evaluates
inside proofs (the `Mul ℚ` instance of the library is irreducible); proved
equal to `· * ·` in `qmul_eq`. -/
def qmul (a b : ℚ) : ℚ := mkRat (a.num * b.num) (a.den * b.den)

/-- Exact rational subtraction in evaluable form; proved equal to `· - ·`
in `qsub_eq`. -/
def qsub (a b : ℚ) : ℚ := mkRat (a.num * b.den - b.num * a.den) (a.den * b.den)

/-- Exact rational division in evaluable form; proved equal to `· / ·`
in `qdiv_eq`. -/
def qdiv (a b : ℚ) : ℚ := Rat.divInt (a.num * b.den) (a.den * b.num)

/-- IEEE-style multiplication on modelled floats; finite × finite is exact
rational multiplication. -/
def PFloat.mul : PFloat → PFloat → PFloat
  | .nan, _ => .nan
  | _, .nan => .nan
  | .finite a, .finite b => .finite (qmul a b)
  | .finite a, .inf => if 0 < a then .inf else if a < 0 then .ninf else .nan
  | .finite a, .ninf => if 0 < a then .ninf else if a < 0 then .inf else .nan
  | .inf, .finite b => if 0 < b then .inf else if b < 0 then .ninf else .nan
  | .ninf, .finite b => if 0 < b then .ninf else if b < 0 then .inf else .nan
  | .inf, .inf => .inf
  | .inf, .ninf => .ninf
  | .ninf, .inf => .ninf
  | .ninf, .ninf => .inf

/-- IEEE-style division.  Python raises `ZeroDivisionError` on a finite zero
divisor; the only division in the source (`compute_metrics`) is guarded by
`avg_cost != 0`, so that case is unreachable there and is mapped to `nan`. -/
def PFloat.div : PFloat → PFloat → PFloat
  | .nan, _ => .nan
  | _, .nan => .nan
  | .finite a, .finite b => if b = 0 then .nan else .finite (qdiv a b)
  | .finite _, .inf => .finite 0
  | .finite _, .ninf => .finite 0
  | .inf, .finite b => if b < 0 then .ninf else .inf
  | .ninf, .finite b => if b < 0 then .inf else .ninf
  | .inf, .inf => .nan
  | .inf, .ninf => .nan
  | .ninf, .inf => .nan
  | .ninf, .ninf => .nan

/-- IEEE-style subtraction; finite − finite is exact. -/
def PFloat.sub : PFloat → PFloat → PFloat
  | .nan, _ => .nan
  | _, .nan => .nan
  | .finite a, .finite b => .finite (qsub a b)
  | .finite _, .inf => .ninf
  | .finite _, .ninf => .inf
  | .inf, .finite _ => .inf
  | .ninf, .finite _ => .ninf
  | .inf, .inf => .nan
  | .inf, .ninf => .inf
  | .ninf, .inf => .ninf
  | .ninf, .ninf => .nan

/-- Model of the Python value stored under the `"number"` key of a Notion
number property (the argument of `safe_num`).  `num` covers `int` and
`float` instances; `nonNumeric conv` covers every other non-`None` value,
carrying the result the builtin `float(x)` conversion would produce on it
(`none` when the conversion raises, which `safe_num` catches). -/
inductive PyVal where
  | none
  | num (f : PFloat)
  | nonNumeric (conv : Option PFloat)
deriving DecidableEq, Repr

/-- Model of `safe_num` (source lines 75–85): `None` maps to absent; an
`int`/`float` is returned unless it is NaN (`math.isnan`); any other value is
passed to `float(x)`, with a raised conversion exception caught to absent.
Note the`isnan` check happens only on the `int`/`float` branch. -/
def safe_num : PyVal → Option PFloat
  | .none => Option.none
  | .num f => if f = PFloat.nan then Option.none else some f
  | .nonNumeric conv => conv

/-- Model of Python's `str.strip()`: drop whitespace characters from both
ends.  (Defined structurally over the character list rather than with
`String.trim`, whose auxiliary functions use well-founded recursion and so
do not evaluate inside proofs; on the whitespace the source can contain the
two agree.) -/
def strip (s : String) : String :=
  String.mk (((s.data.dropWhile Char.isWhitespace).reverse.dropWhile
    Char.isWhitespace).reverse)

/-- Model of Python's `"".join(...)` over the `plain_text` fragments of a
rich-text or title payload. -/
def join_plain_text (fragments : List String) : String :=
  fragments.foldl (fun a b => a ++ b) ""

/-- Model of one Notion property value: its `"type"` tag plus the payload
the accessors read.  Rich-text and title payloads are modelled as the list of
`plain_text` fragments.  `other` covers every remaining property type. -/
inductive NProp where
  | number (value : PyVal)
  | richText (fragments : List String)
  | title (fragments : List String)
  | other
deriving DecidableEq, Repr

/-- Model of one Notion page: its id and its property bag. -/
structure NPage where
  id : String
  properties : List (String × NProp)
deriving DecidableEq, Repr

/-- Model of `get_prop_number` (source lines 87–91): absent property or a
non-`number` property type gives `None`; otherwise the stored value goes
through `safe_num`. -/
def get_prop_number (page : NPage) (prop : String) : Option PFloat :=
  match page.properties.lookup prop with
  | Option.none => Option.none
  | some (NProp.number v) => safe_num v
  | some _ => Option.none

/-- Model of `get_prop_rich_text` (source lines 93–103): concatenates the
`plain_text` fragments of a `rich_text` or `title` property and strips
surrounding whitespace; every other case gives the empty string. -/
def get_prop_rich_text (page : NPage) (prop : String) : String :=
  match page.properties.lookup prop with
  | Option.none => ""
  | some (NProp.richText rt) => strip (join_plain_text rt)
  | some (NProp.title tt) => strip (join_plain_text tt)
  | some _ => ""

/-- Model of `compute_metrics` (source lines 135–142). -/
def compute_metrics (shares avg_cost price : Option PFloat) :
    Option PFloat × Option PFloat :=
  match shares, price with
  | some s, some p =>
    let value := s.mul p
    let pl_pct : Option PFloat :=
      match avg_cost with
      | some a =>
        if a ≠ PFloat.finite 0 then
          some (((p.div a).sub (PFloat.finite 1)).mul (PFloat.finite 100))
        else Option.none
      | Option.none => Option.none
    (some value, pl_pct)
  | _, _ => (Option.none, Option.none)

/-- Model of the observable behaviour of yfinance for one (trimmed) ticker,
as `fetch_price` (source lines 111–133) consumes it:
* `raises`: some step of the lookup raises an exception (network error,
  unknown symbol, malformed response, failed `float()` conversion);
* `fast p`: `fast_info` exists and carries a non-`None` `last_price` that
  converts to the float `p`;
* `hist closes`: the fast path yields no usable value and
  `history(period="1d", interval="1m")` returns rows whose `Close` column
  converts to the floats `closes` (empty list: no rows, or `None`). -/
inductive Quote where
  | raises
  | fast (p : PFloat)
  | hist (closes : List PFloat)
deriving DecidableEq, Repr

/-- Model of `fetch_price` (source lines 111–133): trims the ticker, returns
`None` on a blank ticker, otherwise consults the provider; a raised exception
is caught (and logged) and becomes `None`; the fast path returns its price;
otherwise the last `Close` of the day history, or `None` when there are no
rows. -/
def fetch_price (provider : String → Quote) (ticker : String) : Option PFloat :=
  let t := strip ticker
  if t.isEmpty then Option.none
  else
    match provider t with
    | Quote.raises => Option.none
    | Quote.fast p => some p
    | Quote.hist closes => closes.getLast?

/-- Notion property names used by the script (source lines 53–60). -/
def PROP_TITLE : String := "Name"

/-- Ticker property name. -/
def PROP_TICKER : String := "Ticker"

/-- Shares property name. -/
def PROP_SHARES : String := "Shares"

/-- Average-cost property name. -/
def PROP_AVG_COST : String := "Avg Cost"

/-- Price property name. -/
def PROP_PRICE : String := "Price"

/-- Value property name. -/
def PROP_VALUE : String := "Value"

/-- Profit/loss percentage property name. -/
def PROP_PL_PCT : String := "P/L %"

/-- Last-updated property name. -/
def PROP_LAST_UPDATED : String := "Last Updated"

/-- Model of the value placed in the partial property map sent to
`client.pages.update`: `number v` models the payload built by
`notion_number` and `date start` models the payload built by `notion_date`. -/
inductive PropPatch where
  | number (value : Option PFloat)
  | date (start : String)
deriving DecidableEq, Repr

/-- Model of `notion_number` (source lines 105–106): an absent value is sent
as an explicit `None` number payload (`value if value is not None else None`
is the identity on optionals), never omitted from the map. -/
def notion_number (value : Option PFloat) : PropPatch :=
  PropPatch.number value

/-- Model of `notion_date` (source lines 108–109). -/
def notion_date (iso : String) : PropPatch :=
  PropPatch.date iso

/-- Observable calls the reconciliation loop makes to external services:
a price fetch for a ticker, or a page update carrying the partial property
map sent to the store. -/
inductive Event where
  | fetch (ticker : String)
  | write (page_id : String) (props : List (String × PropPatch))
deriving DecidableEq, Repr

/-- Projection of the property map carried by a write event. -/
def Event.props : Event → List (String × PropPatch)
  | .fetch _ => []
  | .write _ ps => ps

/-- Model of `update_page` (source lines 155–162): builds the partial
property map with exactly the four output fields and issues the update call
(the timestamp `ts` models `now_iso()`).  Whether the store accepts the call
is decided by the `write_fails` oracle at the call site in the loop. -/
def update_page (page_id : String) (price value pl_pct : Option PFloat)
    (ts : String) : Event :=
  Event.write page_id
    [(PROP_PRICE, notion_number price),
     (PROP_VALUE, notion_number value),
     (PROP_PL_PCT, notion_number pl_pct),
     (PROP_LAST_UPDATED, notion_date ts)]

/-- Model of one response of `client.databases.query`: the page of results,
and the `has_more` flag telling the loop whether to follow `next_cursor`. -/
structure QueryResp where
  results : List NPage
  has_more : Bool
deriving DecidableEq, Repr

/-- Model of `query_all_pages` (source lines 144–153).  The store is
modelled as the sequence of responses successive cursor-following calls
return; the loop accumulates each page of results and stops as soon as a
response reports `has_more` false (or the modelled store is exhausted). -/
def query_all_pages : List QueryResp → List NPage
  | [] => []
  | r :: rest => r.results ++ (if r.has_more then query_all_pages rest else [])

/-- Terminal state of one record of the reconciliation loop
(spec §4.4; source lines 175–209). -/
inductive Outcome where
  | skippedNoTicker
  | skippedHasPrice
  | failedFetch
  | updated
  | failedWrite
deriving DecidableEq, Repr

/-- Run counters printed by the final summary line (source lines 171–173,
211). -/
structure Counters where
  updated : Nat
  skipped : Nat
  failed : Nat
deriving DecidableEq, Repr

/-- Counter increment the loop performs for each terminal outcome
(source lines 180, 188, 193, 204, 208). -/
def bump (c : Counters) : Outcome → Counters
  | Outcome.skippedNoTicker => { c with skipped := c.skipped + 1 }
  | Outcome.skippedHasPrice => { c with skipped := c.skipped + 1 }
  | Outcome.failedFetch => { c with failed := c.failed + 1 }
  | Outcome.updated => { c with updated := c.updated + 1 }
  | Outcome.failedWrite => { c with failed := c.failed + 1 }

/-- Model of one iteration of the `for page in pages` loop of `main`
(source lines 175–209): read the ticker and skip when blank; read shares,
average cost and the existing price; skip when missing-only mode is on and a
price exists; fetch the price, counting a failure; otherwise compute metrics
on the display price and issue the write, whose success is decided by the
`write_fails` oracle.  `fx` models the global `FX_RATE`: the scaling line of
the source (line 198) is commented out, so `price_display` is the resolved
price unchanged and `fx` is unused, exactly as in the source.  Returns the
record's terminal outcome and the external calls made for it. -/
def process_page (uom : Bool) (fx : ℚ) (provider : String → Quote)
    (write_fails : String → Bool) (ts : String) (page : NPage) :
    Outcome × List Event :=
  let ticker := get_prop_rich_text page PROP_TICKER
  if ticker.isEmpty then (Outcome.skippedNoTicker, [])
  else
    let shares := get_prop_number page PROP_SHARES
    let avg_cost := get_prop_number page PROP_AVG_COST
    let existing_price := get_prop_number page PROP_PRICE
    if uom && existing_price.isSome then (Outcome.skippedHasPrice, [])
    else
      match fetch_price provider ticker with
      | Option.none => (Outcome.failedFetch, [Event.fetch ticker])
      | some price =>
        let price_display := price
        let m := compute_metrics shares avg_cost (some price_display)
        let ev := update_page page.id (some price_display) m.1 m.2 ts
        if write_fails page.id then (Outcome.failedWrite, [Event.fetch ticker, ev])
        else (Outcome.updated, [Event.fetch ticker, ev])

/-- One fold step of the loop: process the page, bump the matching counter
and append the record's external calls to the trace. -/
def step (uom : Bool) (fx : ℚ) (provider : String → Quote)
    (write_fails : String → Bool) (ts : String)
    (acc : Counters × List Event) (page : NPage) : Counters × List Event :=
  let r := process_page uom fx provider write_fails ts page
  (bump acc.1 r.1, acc.2 ++ r.2)

/-- The reconciliation loop of `main` over an already-drained page list,
starting from zeroed counters and an empty trace. -/
def run_loop (uom : Bool) (fx : ℚ) (provider : String → Quote)
    (write_fails : String → Bool) (ts : String) (pages : List NPage) :
    Counters × List Event :=
  pages.foldl (step uom fx provider write_fails ts) (⟨0, 0, 0⟩, [])

/-- Run configuration read from the environment at startup (source lines
46–50).  `notion_token` and `database_id` model `os.getenv` results
(`none` when unset); `BASE_CURRENCY` is informational only and omitted. -/
structure Config where
  notion_token : Option String
  database_id : Option String
  fx_rate : ℚ
  update_only_missing : Bool

/-- Python truthiness test used by `require_env`: `not x` holds for an unset
variable and for the empty string. -/
def falsy : Option String → Bool
  | Option.none => true
  | some s => s.isEmpty

/-- Model of `require_env` (source lines 62–70): the list of missing
mandatory setting names, in the order the source checks them; `main` aborts
with `SystemExit` naming exactly these when the list is non-empty. -/
def require_env (cfg : Config) : List String :=
  (if falsy cfg.notion_token then ["NOTION_TOKEN"] else []) ++
  (if falsy cfg.database_id then ["NOTION_DATABASE_ID"] else [])

/-- Model of `main` (source lines 164–211): validate the configuration
before any I/O, aborting (`SystemExit`, a non-zero process exit) with the
missing names; otherwise drain pagination and fold the per-record loop,
returning normally (a successful process exit) with the counters and the
trace of external calls. -/
def run_main (cfg : Config) (resps : List QueryResp)
    (provider : String → Quote) (write_fails : String → Bool) (ts : String) :
    Except (List String) (Counters × List Event) :=
  match require_env cfg with
  | [] => Except.ok (run_loop cfg.update_only_missing cfg.fx_rate provider
      write_fails ts (query_all_pages resps))
  | missing => Except.error missing

/-! Concrete sample inputs used to instantiate the theorems below. -/

/-- Sample page: ticker `AAPL`, 10 shares at an average cost of 100, no
existing price. -/
def pageAAPL : NPage :=
  { id := "p1",
    properties := [
      (PROP_TITLE, NProp.title ["Apple"]),
      (PROP_TICKER, NProp.richText ["AAPL"]),
      (PROP_SHARES, NProp.number (PyVal.num (PFloat.finite 10))),
      (PROP_AVG_COST, NProp.number (PyVal.num (PFloat.finite 100)))] }

/-- Sample page whose ticker property is whitespace only. -/
def pageBlank : NPage :=
  { id := "p2",
    properties := [
      (PROP_TITLE, NProp.title ["Cash"]),
      (PROP_TICKER, NProp.richText ["   "]),
      (PROP_SHARES, NProp.number (PyVal.num (PFloat.finite 3)))] }

/-- Sample page with a non-empty ticker and an existing price of 50. -/
def pageHasPrice : NPage :=
  { id := "p3",
    properties := [
      (PROP_TICKER, NProp.richText ["MSFT"]),
      (PROP_SHARES, NProp.number (PyVal.num (PFloat.finite 4))),
      (PROP_AVG_COST, NProp.number (PyVal.num (PFloat.finite 40))),
      (PROP_PRICE, NProp.number (PyVal.num (PFloat.finite 50)))] }

/-- Sample page whose number-typed `Shares` property stores positive
infinity. -/
def pageInfShares : NPage :=
  { id := "p4",
    properties := [
      (PROP_TICKER, NProp.richText ["XYZ"]),
      (PROP_SHARES, NProp.number (PyVal.num PFloat.inf))] }

/-- Sample page exercising the accessor's absence cases: a null number, a
NaN number, a finite number and a text-typed field. -/
def pageMixed : NPage :=
  { id := "p5",
    properties := [
      ("NullNum", NProp.number PyVal.none),
      ("NanNum", NProp.number (PyVal.num PFloat.nan)),
      ("FinNum", NProp.number (PyVal.num (PFloat.finite 7))),
      ("Text", NProp.richText ["x"])] }

/-- Sample provider: every ticker resolves to a fast price of 110. -/
def provAAPL : String → Quote := fun _ => Quote.fast (PFloat.finite 110)

/-- Sample provider that raises on every ticker. -/
def provRaises : String → Quote := fun _ => Quote.raises

/-- Sample store behaviour: every write succeeds. -/
def wfNone : String → Bool := fun _ => false

/-- Sample pagination: two pages of results, `has_more` true exactly on the
first response. -/
def respsTwo : List QueryResp :=
  [⟨[pageAAPL], true⟩, ⟨[pageHasPrice], false⟩]

/-- Sample configuration with both mandatory settings present. -/
def cfgGood : Config :=
  { notion_token := some "tok", database_id := some "db",
    fx_rate := 1, update_only_missing := false }

/-- Sample configuration with the token unset and the database id empty. -/
def cfgBad : Config :=
  { notion_token := Option.none, database_id := some "",
    fx_rate := 1, update_only_missing := false }

/-! Theorems. -/

theorem qmul_eq (a b : ℚ) : qmul a b = a * b := by
  rw [Rat.mul_def, Rat.normalize_eq_mkRat]; rfl

theorem qsub_eq (a b : ℚ) : qsub a b = a - b := (Rat.sub_def' a b).symm

theorem qdiv_eq (a b : ℚ) : qdiv a b = a / b := (Rat.div_def' a b).symm

/-- C1: `compute_metrics` returns `(absent, absent)` when shares or price is
absent; otherwise the value is exactly `shares × price` (exact rational
arithmetic, no rounding) and the percentage is absent unless the average
cost is present and nonzero, in which case it is exactly
`(price / avg_cost − 1) × 100`; in particular shares 10, average cost 100
and price 110 give value 1100 and percentage 10. -/
theorem compute_metrics_spec (shares avg_cost price : Option PFloat) :
    ((shares = Option.none ∨ price = Option.none) →
      compute_metrics shares avg_cost price = (Option.none, Option.none)) ∧
    (∀ s p : ℚ, shares = some (PFloat.finite s) → price = some (PFloat.finite p) →
      (compute_metrics shares avg_cost price).1 = some (PFloat.finite (s * p)) ∧
      (avg_cost = Option.none → (compute_metrics shares avg_cost price).2 = Option.none) ∧
      (avg_cost = some (PFloat.finite 0) →
        (compute_metrics shares avg_cost price).2 = Option.none) ∧
      (∀ a : ℚ, a ≠ 0 → avg_cost = some (PFloat.finite a) →
        (compute_metrics shares avg_cost price).2 =
          some (PFloat.finite ((p / a - 1) * 100)))) ∧
    compute_metrics (some (PFloat.finite 10)) (some (PFloat.finite 100))
      (some (PFloat.finite 110)) =
      (some (PFloat.finite 1100), some (PFloat.finite 10)) := by
  refine ⟨?_, ?_, by decide⟩
  · rintro (rfl | rfl)
    · cases price <;> rfl
    · cases shares <;> rfl
  · rintro s p rfl rfl
    refine ⟨by simp [compute_metrics, PFloat.mul, qmul_eq], ?_, ?_, ?_⟩
    · rintro rfl; rfl
    · rintro rfl; simp [compute_metrics]
    · rintro a ha rfl
      have hne : PFloat.finite a ≠ PFloat.finite 0 := by
        simpa using ha
      simp [compute_metrics, hne, PFloat.div, PFloat.sub, PFloat.mul, ha,
        qdiv_eq, qsub_eq, qmul_eq]

/-- Witness for C1 at concrete inputs: an absent share count gives
`(absent, absent)`, and the finite triple (10, 100, 110) follows the exact
formulas. -/
theorem compute_metrics_spec_witness :
    compute_metrics Option.none (some (PFloat.finite 5)) (some (PFloat.finite 50)) =
      (Option.none, Option.none) ∧
    (compute_metrics (some (PFloat.finite 10)) (some (PFloat.finite 100))
      (some (PFloat.finite 110))).1 = some (PFloat.finite (10 * 110)) ∧
    (compute_metrics (some (PFloat.finite 10)) (some (PFloat.finite 100))
      (some (PFloat.finite 110))).2 =
      some (PFloat.finite ((110 / 100 - 1) * 100)) := by
  refine ⟨(compute_metrics_spec _ _ _).1 (Or.inl rfl), ?_, ?_⟩
  · exact ((compute_metrics_spec _ _ _).2.1 10 110 rfl rfl).1
  · exact ((compute_metrics_spec _ _ _).2.1 10 110 rfl rfl).2.2.2 100 (by norm_num) rfl

/-- C9: the partial property map sent by the record writer contains exactly
the four output fields (price, value, percentage, timestamp) in order and no
others, and an absent price, value or percentage is sent as an explicit
`number : None` payload rather than being omitted. -/
theorem update_page_frame (page_id : String) (price value pl_pct : Option PFloat)
    (ts : String) :
    (Event.props (update_page page_id price value pl_pct ts)).map Prod.fst =
      [PROP_PRICE, PROP_VALUE, PROP_PL_PCT, PROP_LAST_UPDATED] ∧
    (Event.props (update_page page_id price value pl_pct ts)).lookup PROP_PRICE =
      some (PropPatch.number price) ∧
    (Event.props (update_page page_id price value pl_pct ts)).lookup PROP_VALUE =
      some (PropPatch.number value) ∧
    (Event.props (update_page page_id price value pl_pct ts)).lookup PROP_PL_PCT =
      some (PropPatch.number pl_pct) ∧
    (Event.props (update_page page_id price value pl_pct ts)).lookup PROP_LAST_UPDATED =
      some (PropPatch.date ts) ∧
    notion_number Option.none = PropPatch.number Option.none := by
  refine ⟨rfl, ?_, ?_, ?_, ?_, rfl⟩ <;>
    simp [update_page, Event.props, List.lookup, notion_number, notion_date,
      PROP_PRICE, PROP_VALUE, PROP_PL_PCT, PROP_LAST_UPDATED]

/-- Helper: each terminal outcome bumps exactly one of the three counters. -/
theorem bump_total (c : Counters) (o : Outcome) :
    (bump c o).updated + (bump c o).skipped + (bump c o).failed =
      c.updated + c.skipped + c.failed + 1 := by
  cases o <;> simp [bump] <;> omega

/-- Helper: folding the loop step adds one counted record per page. -/
theorem foldl_step_total (uom : Bool) (fx : ℚ) (provider : String → Quote)
    (wf : String → Bool) (ts : String) :
    ∀ (pages : List NPage) (acc : Counters × List Event),
      (pages.foldl (step uom fx provider wf ts) acc).1.updated +
        (pages.foldl (step uom fx provider wf ts) acc).1.skipped +
        (pages.foldl (step uom fx provider wf ts) acc).1.failed =
      acc.1.updated + acc.1.skipped + acc.1.failed + pages.length
  | [], acc => by simp
  | pg :: rest, acc => by
    have ih := foldl_step_total uom fx provider wf ts rest
      (step uom fx provider wf ts acc pg)
    simp only [List.foldl_cons, List.length_cons] at ih ⊢
    rw [ih, step, bump_total]
    omega

/-- C10: every record iterated by the loop increments exactly one of the
three counters, so at completion updated + skipped + failed equals the
number of records returned by pagination. -/
theorem counters_partition (uom : Bool) (fx : ℚ) (provider : String → Quote)
    (wf : String → Bool) (ts : String) (pages : List NPage) :
    (∀ (c : Counters) (o : Outcome),
      (bump c o).updated + (bump c o).skipped + (bump c o).failed =
        c.updated + c.skipped + c.failed + 1) ∧
    (run_loop uom fx provider wf ts pages).1.updated +
      (run_loop uom fx provider wf ts pages).1.skipped +
      (run_loop uom fx provider wf ts pages).1.failed = pages.length := by
  refine ⟨bump_total, ?_⟩
  have h := foldl_step_total uom fx provider wf ts pages (⟨0, 0, 0⟩, [])
  simpa [run_loop] using h

/-- C4: a record whose ticker is empty after the accessor's trimming (so an
empty or whitespace-only ticker field) causes no fetch and no write, and the
loop counts it as skipped. -/
theorem skip_blank_ticker (uom : Bool) (fx : ℚ) (provider : String → Quote)
    (wf : String → Bool) (ts : String) (page : NPage)
    (h : get_prop_rich_text page PROP_TICKER = "") :
    process_page uom fx provider wf ts page = (Outcome.skippedNoTicker, []) ∧
    (∀ acc : Counters × List Event,
      step uom fx provider wf ts acc page =
        ({ acc.1 with skipped := acc.1.skipped + 1 }, acc.2)) := by
  have hempty : (get_prop_rich_text page PROP_TICKER).isEmpty = true := by
    rw [h]; rfl
  have hp : process_page uom fx provider wf ts page = (Outcome.skippedNoTicker, []) := by
    simp [process_page, hempty]
  exact ⟨hp, fun acc => by simp [step, hp, bump]⟩

/-- Witness for C4: the whitespace-ticker sample page is skipped with no
external call; starting from zeroed counters the loop records one skip. -/
theorem skip_blank_ticker_witness :
    process_page false 1 provAAPL wfNone "T0" pageBlank =
      (Outcome.skippedNoTicker, []) ∧
    step false 1 provAAPL wfNone "T0" (⟨0, 0, 0⟩, []) pageBlank =
      (⟨0, 1, 0⟩, []) := by
  have h := skip_blank_ticker false 1 provAAPL wfNone "T0" pageBlank (by decide)
  exact ⟨h.1, h.2 (⟨0, 0, 0⟩, [])⟩

/-- C5: when the provider raises on every ticker, the resolver converts the
failure to an unavailable price rather than propagating it, and a record
that reaches the fetch is counted as failed with no write attempted, the
fold continuing with the remaining records. -/
theorem provider_failure_contained (uom : Bool) (fx : ℚ) (wf : String → Bool)
    (ts : String) (page : NPage) (rest : List NPage) (c : Counters)
    (evs : List Event) (provider : String → Quote)
    (hraises : ∀ s, provider s = Quote.raises)
    (ht : (get_prop_rich_text page PROP_TICKER).isEmpty = false)
    (hm : (uom && (get_prop_number page PROP_PRICE).isSome) = false) :
    fetch_price provider (get_prop_rich_text page PROP_TICKER) = Option.none ∧
    process_page uom fx provider wf ts page =
      (Outcome.failedFetch, [Event.fetch (get_prop_rich_text page PROP_TICKER)]) ∧
    List.foldl (step uom fx provider wf ts) (c, evs) (page :: rest) =
      List.foldl (step uom fx provider wf ts)
        ({ c with failed := c.failed + 1 },
          evs ++ [Event.fetch (get_prop_rich_text page PROP_TICKER)]) rest := by
  have hfetch : fetch_price provider (get_prop_rich_text page PROP_TICKER) =
      Option.none := by
    simp [fetch_price, hraises]
  have hp : process_page uom fx provider wf ts page =
      (Outcome.failedFetch, [Event.fetch (get_prop_rich_text page PROP_TICKER)]) := by
    simp [process_page, ht, hm, hfetch]
  refine ⟨hfetch, hp, ?_⟩
  simp [List.foldl_cons, step, hp, bump]

/-- Witness for C5: with a provider that raises, the sample AAPL record is
counted as failed with only a fetch in the trace, and the loop moves on to
the remaining records. -/
theorem provider_failure_contained_witness :
    fetch_price provRaises (get_prop_rich_text pageAAPL PROP_TICKER) = Option.none ∧
    process_page false 1 provRaises wfNone "T0" pageAAPL =
      (Outcome.failedFetch, [Event.fetch (get_prop_rich_text pageAAPL PROP_TICKER)]) ∧
    List.foldl (step false 1 provRaises wfNone "T0") (⟨0, 0, 0⟩, [])
        (pageAAPL :: [pageHasPrice]) =
      List.foldl (step false 1 provRaises wfNone "T0")
        (⟨0, 0, 1⟩, [Event.fetch (get_prop_rich_text pageAAPL PROP_TICKER)])
        [pageHasPrice] := by
  have h := provider_failure_contained false 1 wfNone "T0" pageAAPL [pageHasPrice]
    ⟨0, 0, 0⟩ [] provRaises (fun s => rfl) (by decide) (by decide)
  exact ⟨h.1, h.2.1, by simpa using h.2.2⟩

/-- C8: with a non-empty ticker and a present existing price, missing-only
mode skips the record (counted as skipped, no fetch or write); with the mode
disabled the same record is fetched, and on a successful fetch the write is
issued with the computed fields. -/
theorem missing_only_mode (fx : ℚ) (provider : String → Quote)
    (wf : String → Bool) (ts : String) (page : NPage)
    (ht : (get_prop_rich_text page PROP_TICKER).isEmpty = false)
    (hp : (get_prop_number page PROP_PRICE).isSome = true) :
    process_page true fx provider wf ts page = (Outcome.skippedHasPrice, []) ∧
    (∀ acc : Counters × List Event,
      step true fx provider wf ts acc page =
        ({ acc.1 with skipped := acc.1.skipped + 1 }, acc.2)) ∧
    (process_page false fx provider wf ts page).2.head? =
      some (Event.fetch (get_prop_rich_text page PROP_TICKER)) ∧
    (∀ p : PFloat,
      fetch_price provider (get_prop_rich_text page PROP_TICKER) = some p →
      (process_page false fx provider wf ts page).2 =
        [Event.fetch (get_prop_rich_text page PROP_TICKER),
         update_page page.id (some p)
           (compute_metrics (get_prop_number page PROP_SHARES)
             (get_prop_number page PROP_AVG_COST) (some p)).1
           (compute_metrics (get_prop_number page PROP_SHARES)
             (get_prop_number page PROP_AVG_COST) (some p)).2 ts]) := by
  have hskip : process_page true fx provider wf ts page =
      (Outcome.skippedHasPrice, []) := by
    simp [process_page, ht, hp]
  refine ⟨hskip, fun acc => by simp [step, hskip, bump], ?_, ?_⟩
  · simp only [process_page, ht, Bool.false_and, if_neg, Bool.false_eq_true,
      not_false_eq_true, if_false]
    cases hf : fetch_price provider (get_prop_rich_text page PROP_TICKER) <;>
      [skip; cases hw : wf page.id] <;> simp [hf]
  · intro p hf
    cases hw : wf page.id <;>
      simp [process_page, ht, hf, hw]

/-- Witness for C8: the sample record with an existing price is skipped when
the mode is on; with the mode off it is fetched and, the fetch succeeding,
the write with the computed fields is issued. -/
theorem missing_only_mode_witness :
    process_page true 1 provAAPL wfNone "T0" pageHasPrice =
      (Outcome.skippedHasPrice, []) ∧
    (process_page false 1 provAAPL wfNone "T0" pageHasPrice).2.head? =
      some (Event.fetch (get_prop_rich_text pageHasPrice PROP_TICKER)) ∧
    (process_page false 1 provAAPL wfNone "T0" pageHasPrice).2 =
      [Event.fetch (get_prop_rich_text pageHasPrice PROP_TICKER),
       update_page pageHasPrice.id (some (PFloat.finite 110))
         (compute_metrics (get_prop_number pageHasPrice PROP_SHARES)
           (get_prop_number pageHasPrice PROP_AVG_COST)
           (some (PFloat.finite 110))).1
         (compute_metrics (get_prop_number pageHasPrice PROP_SHARES)
           (get_prop_number pageHasPrice PROP_AVG_COST)
           (some (PFloat.finite 110))).2 "T0"] := by
  have h := missing_only_mode 1 provAAPL wfNone "T0" pageHasPrice
    (by decide) (by decide)
  exact ⟨h.1, h.2.2.1, h.2.2.2 (PFloat.finite 110) (by decide)⟩

/-- C2 counterexample: with the scaling factor configured as 2, the AAPL
record resolves to price 110 but the write sends price 110, not 110 × 2:
the claim that the written price is the resolved price multiplied by the
configured factor fails (the scaling statement is commented out in the
source). -/
theorem fx_claim_counterexample :
    fetch_price provAAPL (get_prop_rich_text pageAAPL PROP_TICKER) =
      some (PFloat.finite 110) ∧
    (process_page false 2 provAAPL wfNone "T0" pageAAPL).2 =
      [Event.fetch "AAPL",
       update_page "p1" (some (PFloat.finite 110)) (some (PFloat.finite 1100))
         (some (PFloat.finite 10)) "T0"] ∧
    (Event.props (update_page "p1" (some (PFloat.finite 110))
        (some (PFloat.finite 1100)) (some (PFloat.finite 10)) "T0")).lookup
      PROP_PRICE = some (PropPatch.number (some (PFloat.finite 110))) ∧
    PFloat.finite 110 ≠ PFloat.finite (110 * 2) := by
  refine ⟨by decide, by decide, by decide, ?_⟩
  simp only [ne_eq, PFloat.finite.injEq]
  norm_num

/-- C2 as amended: the loop's behaviour is independent of the configured
scaling factor, and the price passed to the metric computation and written
to the record is the resolved price unchanged. -/
theorem fx_not_applied (uom : Bool) (fx fx' : ℚ) (provider : String → Quote)
    (wf : String → Bool) (ts : String) (page : NPage) :
    process_page uom fx provider wf ts page =
      process_page uom fx' provider wf ts page ∧
    (∀ p : PFloat,
      fetch_price provider (get_prop_rich_text page PROP_TICKER) = some p →
      (get_prop_rich_text page PROP_TICKER).isEmpty = false →
      (uom && (get_prop_number page PROP_PRICE).isSome) = false →
      (process_page uom fx provider wf ts page).2 =
        [Event.fetch (get_prop_rich_text page PROP_TICKER),
         update_page page.id (some p)
           (compute_metrics (get_prop_number page PROP_SHARES)
             (get_prop_number page PROP_AVG_COST) (some p)).1
           (compute_metrics (get_prop_number page PROP_SHARES)
             (get_prop_number page PROP_AVG_COST) (some p)).2 ts] ∧
      (Event.props (update_page page.id (some p)
          (compute_metrics (get_prop_number page PROP_SHARES)
            (get_prop_number page PROP_AVG_COST) (some p)).1
          (compute_metrics (get_prop_number page PROP_SHARES)
            (get_prop_number page PROP_AVG_COST) (some p)).2 ts)).lookup
        PROP_PRICE = some (PropPatch.number (some p))) := by
  refine ⟨rfl, ?_⟩
  intro p hf ht hm
  constructor
  · cases hw : wf page.id <;> simp [process_page, ht, hm, hf, hw]
  · simp [update_page, Event.props, List.lookup, notion_number, notion_date,
      PROP_PRICE, PROP_VALUE, PROP_PL_PCT, PROP_LAST_UPDATED]

/-- Witness for C2's amended statement: with factors 2 and 3 the AAPL run is
identical, and the written price equals the resolved 110. -/
theorem fx_not_applied_witness :
    process_page false 2 provAAPL wfNone "T0" pageAAPL =
      process_page false 3 provAAPL wfNone "T0" pageAAPL ∧
    (process_page false 2 provAAPL wfNone "T0" pageAAPL).2 =
      [Event.fetch (get_prop_rich_text pageAAPL PROP_TICKER),
       update_page pageAAPL.id (some (PFloat.finite 110))
         (compute_metrics (get_prop_number pageAAPL PROP_SHARES)
           (get_prop_number pageAAPL PROP_AVG_COST)
           (some (PFloat.finite 110))).1
         (compute_metrics (get_prop_number pageAAPL PROP_SHARES)
           (get_prop_number pageAAPL PROP_AVG_COST)
           (some (PFloat.finite 110))).2 "T0"] := by
  have h := fx_not_applied false 2 3 provAAPL wfNone "T0" pageAAPL
  exact ⟨h.1, (h.2 (PFloat.finite 110) (by decide) (by decide) (by decide)).1⟩

/-- C3 counterexample: a number-typed field storing positive infinity — a
value that is not a finite number — is returned as a present value by the
numeric accessor, not normalized to absent as the claim states. -/
theorem infinity_not_normalized_counterexample :
    pageInfShares.properties.lookup PROP_SHARES =
      some (NProp.number (PyVal.num PFloat.inf)) ∧
    get_prop_number pageInfShares PROP_SHARES = some PFloat.inf ∧
    get_prop_number pageInfShares PROP_SHARES ≠ Option.none := by
  refine ⟨by decide, by decide, by decide⟩

/-- C3 as amended: the numeric accessor is total (so never raises) and
returns absent when the field is missing, when it is not number-typed, when
the stored value is null, and when the stored value is a NaN number —
only NaN is normalized to absent; any other number, infinities included, is
returned as the float value, and a non-number stored value is put through
the `float(x)` conversion with a raised exception caught to absent. -/
theorem get_prop_number_spec (page : NPage) (prop : String) :
    (page.properties.lookup prop = Option.none →
      get_prop_number page prop = Option.none) ∧
    (∀ np : NProp, page.properties.lookup prop = some np →
      (∀ v : PyVal, np ≠ NProp.number v) →
      get_prop_number page prop = Option.none) ∧
    (page.properties.lookup prop = some (NProp.number PyVal.none) →
      get_prop_number page prop = Option.none) ∧
    (page.properties.lookup prop = some (NProp.number (PyVal.num PFloat.nan)) →
      get_prop_number page prop = Option.none) ∧
    (∀ f : PFloat, f ≠ PFloat.nan →
      page.properties.lookup prop = some (NProp.number (PyVal.num f)) →
      get_prop_number page prop = some f) ∧
    (∀ conv : Option PFloat,
      page.properties.lookup prop = some (NProp.number (PyVal.nonNumeric conv)) →
      get_prop_number page prop = conv) := by
  refine ⟨?_, ?_, ?_, ?_, ?_, ?_⟩
  · intro h; simp [get_prop_number, h]
  · intro np h hnot
    cases np with
    | number v => exact absurd rfl (hnot v)
    | richText rt => simp [get_prop_number, h]
    | title tt => simp [get_prop_number, h]
    | other => simp [get_prop_number, h]
  · intro h; simp [get_prop_number, h, safe_num]
  · intro h; simp [get_prop_number, h, safe_num]
  · intro f hf h; simp [get_prop_number, h, safe_num, hf]
  · intro conv h; simp [get_prop_number, h, safe_num]

/-- Witness for C3's amended statement on the mixed sample page: a missing
field, a text-typed field, a null number and a NaN number are all absent,
while a finite number is returned and an infinite one too. -/
theorem get_prop_number_spec_witness :
    get_prop_number pageMixed "Missing" = Option.none ∧
    get_prop_number pageMixed "Text" = Option.none ∧
    get_prop_number pageMixed "NullNum" = Option.none ∧
    get_prop_number pageMixed "NanNum" = Option.none ∧
    get_prop_number pageMixed "FinNum" = some (PFloat.finite 7) ∧
    get_prop_number pageInfShares PROP_SHARES = some PFloat.inf := by
  refine ⟨(get_prop_number_spec pageMixed "Missing").1 (by decide),
    (get_prop_number_spec pageMixed "Text").2.1 (NProp.richText ["x"]) (by decide)
      (by intro v; simp),
    (get_prop_number_spec pageMixed "NullNum").2.2.1 (by decide),
    (get_prop_number_spec pageMixed "NanNum").2.2.2.1 (by decide),
    (get_prop_number_spec pageMixed "FinNum").2.2.2.2.1 (PFloat.finite 7)
      (by decide) (by decide),
    (get_prop_number_spec pageInfShares PROP_SHARES).2.2.2.2.1 PFloat.inf
      (by decide) (by decide)⟩

/-- C7: a missing mandatory credential or collection identifier aborts the
run with an error naming exactly the missing settings, and the result is
independent of the store, provider, write and clock behaviour (no I/O can
influence or be influenced by it); with both settings present the run
always completes with a normal (successful) result, whatever the per-record
failures. -/
theorem config_abort (cfg : Config) :
    (require_env cfg ≠ [] →
      ∀ (r₁ : List QueryResp) (p₁ : String → Quote) (w₁ : String → Bool)
        (t₁ : String) (r₂ : List QueryResp) (p₂ : String → Quote)
        (w₂ : String → Bool) (t₂ : String),
        run_main cfg r₁ p₁ w₁ t₁ = Except.error (require_env cfg) ∧
        run_main cfg r₁ p₁ w₁ t₁ = run_main cfg r₂ p₂ w₂ t₂) ∧
    ("NOTION_TOKEN" ∈ require_env cfg ↔ falsy cfg.notion_token = true) ∧
    ("NOTION_DATABASE_ID" ∈ require_env cfg ↔ falsy cfg.database_id = true) ∧
    (require_env cfg = [] →
      ∀ (r : List QueryResp) (p : String → Quote) (w : String → Bool)
        (t : String), ∃ out, run_main cfg r p w t = Except.ok out) := by
  refine ⟨?_, ?_, ?_, ?_⟩
  · intro hne r₁ p₁ w₁ t₁ r₂ p₂ w₂ t₂
    rcases hm : require_env cfg with _ | ⟨m, ms⟩
    · exact absurd hm hne
    · simp [run_main, hm]
  · cases h₁ : falsy cfg.notion_token <;> cases h₂ : falsy cfg.database_id <;>
      simp [require_env, h₁, h₂]
  · cases h₁ : falsy cfg.notion_token <;> cases h₂ : falsy cfg.database_id <;>
      simp [require_env, h₁, h₂]
  · intro he r p w t
    exact ⟨run_loop cfg.update_only_missing cfg.fx_rate p w t (query_all_pages r),
      by simp [run_main, he]⟩

/-- Witness for C7: the configuration missing both settings aborts naming
both, independently of two different stores and providers, while the good
configuration completes normally. -/
theorem config_abort_witness :
    run_main cfgBad [] provAAPL wfNone "T0" =
      Except.error ["NOTION_TOKEN", "NOTION_DATABASE_ID"] ∧
    run_main cfgBad [] provAAPL wfNone "T0" =
      run_main cfgBad respsTwo provRaises (fun _ => true) "T1" ∧
    ∃ out, run_main cfgGood respsTwo provRaises wfNone "T0" = Except.ok out := by
  have h := (config_abort cfgBad).1 (by decide) [] provAAPL wfNone "T0"
    respsTwo provRaises (fun _ => true) "T1"
  exact ⟨h.1, h.2, (config_abort cfgGood).2.2.2 (by decide) respsTwo provRaises wfNone "T0"⟩

/-- Helper for C6: when `has_more` holds exactly before the last response,
the cursor-following loop concatenates every page of results. -/
theorem query_all_pages_eq_join :
    ∀ resps : List QueryResp,
      (∀ i : Fin resps.length,
        ((resps.get i).has_more = true ↔ i.val + 1 < resps.length)) →
      query_all_pages resps = (resps.map QueryResp.results).flatten
  | [], _ => rfl
  | r :: rest, h => by
    cases rest with
    | nil =>
      have h0 : r.has_more = false := by
        have := h ⟨0, by simp⟩
        simp at this
        exact this
      simp [query_all_pages, h0]
    | cons x xs =>
      have h0 : r.has_more = true := by
        have := h ⟨0, by simp⟩
        simp at this
        exact this
      have ih := query_all_pages_eq_join (x :: xs) (fun i => by
        have := h ⟨i.val + 1, by exact Nat.succ_lt_succ i.isLt⟩
        simpa [Nat.succ_lt_succ_iff] using this)
      show r.results ++ (if r.has_more = true then query_all_pages (x :: xs) else []) = _
      rw [h0, if_pos rfl, ih]
      simp

/-- C6: when the store reports its responses with the has-more flag true for
exactly all but the last, the page-collection loop drains the cursor chain
and returns every record of every page in the store's enumeration order,
and the reconciliation loop then counts each of those records exactly
once. -/
theorem pagination_complete (resps : List QueryResp)
    (h : ∀ i : Fin resps.length,
      ((resps.get i).has_more = true ↔ i.val + 1 < resps.length))
    (uom : Bool) (fx : ℚ) (provider : String → Quote) (wf : String → Bool)
    (ts : String) :
    query_all_pages resps = (resps.map QueryResp.results).flatten ∧
    (run_loop uom fx provider wf ts (query_all_pages resps)).1.updated +
      (run_loop uom fx provider wf ts (query_all_pages resps)).1.skipped +
      (run_loop uom fx provider wf ts (query_all_pages resps)).1.failed =
      ((resps.map QueryResp.results).flatten).length := by
  have hq := query_all_pages_eq_join resps h
  refine ⟨hq, ?_⟩
  rw [hq]
  simpa [run_loop] using
    foldl_step_total uom fx provider wf ts ((resps.map QueryResp.results).flatten)
      (⟨0, 0, 0⟩, [])

/-- Witness for C6 on the two-response sample store: both records are
returned, in order, and the loop counts two records. -/
theorem pagination_complete_witness :
    query_all_pages respsTwo = (respsTwo.map QueryResp.results).flatten ∧
    (run_loop false 1 provAAPL wfNone "T0" (query_all_pages respsTwo)).1.updated +
      (run_loop false 1 provAAPL wfNone "T0" (query_all_pages respsTwo)).1.skipped +
      (run_loop false 1 provAAPL wfNone "T0" (query_all_pages respsTwo)).1.failed =
      ((respsTwo.map QueryResp.results).flatten).length ∧
    query_all_pages respsTwo = [pageAAPL, pageHasPrice] := by
  have h := pagination_complete respsTwo (by decide) false 1 provAAPL wfNone "T0"
  exact ⟨h.1, h.2, by decide⟩

end NotionPortfolio
